import Mathlib

/-!
Verification of the PPTX text-substitution engine of this repository.

The Python sources are shallowly embedded as Lean definitions:

* `src/python_backend/generate_pptx.py` — `TextStyle`, `PPTXTranslator`
  (`prepare_text_replacements`, `replace_text_in_shape`,
  `replace_text_in_table`, `process_slide`, `translate`, `save`) and the
  top-level `generate_translated_pptx` result shape;
* `src/python_backend/generate_translated_pptx.py` — its
  `replace_text_in_shape` (run-level in-place replacement);
* `src/src/lib/pptx/apply_translations.py` — `apply_translations_to_pptx`
  restricted to one slide (the per-slide loop body);
* `src/scripts/process_pptx.py` — `PPTXProcessor.extract_text_from_slide`.

Python `dict`s become insertion-ordered association lists with in-place
update, Python truthiness of optional strings/lengths is modelled
explicitly, and the float positions of the extraction script are modelled
as rationals.
-/

/-- Python's `str.strip()`: remove leading and trailing whitespace. -/
def String.strip (s : String) : String :=
  ⟨((s.data.dropWhile Char.isWhitespace).reverse.dropWhile
      Char.isWhitespace).reverse⟩

namespace Pptx

/-- Python truthiness of an optional string: `None` and `""` are falsy. -/
def truthyStr : Option String → Bool
  | none => false
  | some s => s != ""

/-- Python truthiness of an optional numeric value (font size, length):
`None` and `0` are falsy. -/
def truthyNat : Option Nat → Bool
  | none => false
  | some n => n != 0

/-- Python truthiness of an optional rational (a position/length value). -/
def truthyRat : Option ℚ → Bool
  | none => false
  | some q => q != 0

/-- A Python `dict[str, str]` as an insertion-ordered association list.
`d[k] = v` updates the existing entry in place or appends a new one, so
keys stay unique and a later assignment to the same key wins. -/
def dictInsert (m : List (String × String)) (k v : String) :
    List (String × String) :=
  if m.any (fun p => p.1 == k) then
    m.map (fun p => if p.1 == k then (k, v) else p)
  else m ++ [(k, v)]

/-- Lookup in the association-list model of a Python `dict`. -/
def dictFind (m : List (String × String)) (k : String) : Option String :=
  (m.find? (fun p => p.1 == k)).map (fun p => p.2)

/-- Whether the character list `needle` is a prefixing segment of `hay`. -/
def listStartsWith : List Char → List Char → Bool
  | [], _ => true
  | _ :: _, [] => false
  | a :: as, b :: bs => a == b && listStartsWith as bs

/-- Whether `needle` occurs contiguously inside `hay`. -/
def listContainsSeg (needle : List Char) : List Char → Bool
  | [] => listStartsWith needle []
  | b :: bs => listStartsWith needle (b :: bs) || listContainsSeg needle bs

/-- Python's substring test `needle in hay` on strings. -/
def strContainsSub (hay needle : String) : Bool :=
  listContainsSeg needle.toList hay.toList

/-- Replace the element at an index, leaving the list unchanged when the
index is out of range (Python mutates `lst[i]` of an existing index). -/
def listModify (f : α → α) : Nat → List α → List α
  | _, [] => []
  | 0, a :: as => f a :: as
  | n + 1, a :: as => a :: listModify f n as

/-! ### Data model (python-pptx objects used by the repository) -/

/-- Character-level formatting of a run (`run.font`); every attribute is
`none` when it is not explicitly set on the run. -/
structure Font where
  name : Option String := none
  size : Option Nat := none
  bold : Option Bool := none
  italic : Option Bool := none
  underline : Option Bool := none
  colorRgb : Option (Nat × Nat × Nat) := none
deriving Repr, DecidableEq

/-- A run: the minimal unit of text carrying a character style. -/
structure Run where
  text : String
  font : Font := {}
deriving Repr, DecidableEq

/-- A fresh run as produced by `paragraph.add_run()` followed by a text
assignment: no explicit formatting. -/
def Run.new (t : String) : Run := { text := t }

/-- A paragraph: an ordered list of runs plus paragraph-level style. -/
structure Paragraph where
  runs : List Run
  alignment : Option Nat := none
  level : Option Nat := none
  lineSpacing : Option Nat := none
  spaceBefore : Option Nat := none
  spaceAfter : Option Nat := none
deriving Repr, DecidableEq

/-- `paragraph.text`: the concatenation of the runs' text. -/
def paraText (p : Paragraph) : String :=
  String.join (p.runs.map (fun r => r.text))

/-- A text frame (of a text shape or of a table cell). -/
structure TextFrame where
  paragraphs : List Paragraph
deriving Repr, DecidableEq

/-- `text_frame.text` / `cell.text`: paragraph texts joined by newlines. -/
def frameText (tf : TextFrame) : String :=
  String.intercalate "\n" (tf.paragraphs.map paraText)

/-- A shape on a slide: a text shape, a table (grid of cell frames), or a
group of nested shapes. -/
inductive Shape where
  | text (frame : TextFrame)
  | table (rows : List (List TextFrame))
  | group (children : List Shape)
deriving Repr

/-- A slide: its shapes plus the optional speaker-notes text. -/
structure Slide where
  shapes : List Shape
  notes : Option String := none
deriving Repr

/-! ### generate_pptx.py -/

/-- `JAPANESE_FONTS` of generate_pptx.py (preference order). -/
def JAPANESE_FONTS : List String :=
  ["游ゴシック", "Yu Gothic", "メイリオ", "Meiryo", "ＭＳ ゴシック",
   "MS Gothic", "ヒラギノ角ゴ Pro", "Hiragino Kaku Gothic Pro",
   "Noto Sans CJK JP", "源ノ角ゴシック"]

/-- `TextStyle` of generate_pptx.py: a captured run style snapshot. -/
structure TextStyle where
  font_name : Option String := none
  font_size : Option Nat := none
  bold : Option Bool := none
  italic : Option Bool := none
  underline : Option Bool := none
  color_rgb : Option (Nat × Nat × Nat) := none
  alignment : Option Nat := none
deriving Repr, DecidableEq

/-- `TextStyle.apply_to_run` of generate_pptx.py.  For Japanese target
text the template font is kept only when Python's `any(jp_font in
self.font_name for jp_font in JAPANESE_FONTS)` holds — a substring test —
otherwise `JAPANESE_FONTS[0]` is installed. -/
def TextStyle.apply_to_run (s : TextStyle) (r : Run) (is_japanese : Bool) :
    Run :=
  let f := r.font
  let f := if truthyNat s.font_size then { f with size := s.font_size } else f
  let f :=
    if is_japanese then
      if truthyStr s.font_name &&
          JAPANESE_FONTS.any
            (fun jp => strContainsSub (s.font_name.getD "") jp) then
        { f with name := s.font_name }
      else
        { f with name := some (JAPANESE_FONTS.headD "") }
    else if truthyStr s.font_name then { f with name := s.font_name }
    else f
  let f := if s.bold.isSome then { f with bold := s.bold } else f
  let f := if s.italic.isSome then { f with italic := s.italic } else f
  let f := if s.underline.isSome then { f with underline := s.underline } else f
  let f := if s.color_rgb.isSome then { f with colorRgb := s.color_rgb } else f
  { r with font := f }

/-- `PPTXTranslator.is_japanese_text`: the text contains a character in
the Hiragana, Katakana, CJK Unified Ideographs, or Extension A ranges. -/
def is_japanese_text (t : String) : Bool :=
  t.toList.any (fun c =>
    let n := c.toNat
    (0x3040 ≤ n && n ≤ 0x309F) || (0x30A0 ≤ n && n ≤ 0x30FF) ||
    (0x4E00 ≤ n && n ≤ 0x9FFF) || (0x3400 ≤ n && n ≤ 0x4DBF))

/-- `PPTXTranslator.extract_text_style`.  The `font_size` branch first
reads `run.font.size` when truthy and otherwise falls back to the raw XML
`sz` attribute — which is the same underlying value, so the captured size
is the run's size either way. -/
def extract_text_style (r : Run) : TextStyle :=
  { font_name := if truthyStr r.font.name then r.font.name else none
    font_size := r.font.size
    bold := r.font.bold
    italic := r.font.italic
    underline := r.font.underline
    color_rgb := r.font.colorRgb
    alignment := none }

/-- One record of the translation payload (`{original, translated}`). -/
structure TextData where
  original : String
  translated : String
deriving Repr, DecidableEq

/-- One slide's worth of supplied translation records. -/
structure SlideData where
  texts : List TextData
deriving Repr, DecidableEq

/-- The loop body of `PPTXTranslator.prepare_text_replacements` (lines
286–291): a pair is added only when the trimmed original and translated
are non-empty and different. -/
def add_replacement (m : List (String × String)) (td : TextData) :
    List (String × String) :=
  let original := td.original.strip
  let translated := td.translated.strip
  if original != "" && translated != "" && original != translated then
    dictInsert m original translated
  else m

/-- `PPTXTranslator.prepare_text_replacements`: one dictionary built from
all slides' records. -/
def prepare_text_replacements (slides_data : List SlideData) :
    List (String × String) :=
  slides_data.foldl (fun m sd => sd.texts.foldl add_replacement m) []

/-- The body of the match case of `PPTXTranslator.replace_text_in_shape`
(lines 352–377): with runs present, the first run's style is captured,
the paragraph is cleared, one new run receives the translated text, the
style is reapplied, and an 11-point size is installed when neither the
new run nor the captured style carries a truthy size.  With no runs,
`paragraph.text = new_text` builds a single run and only a Japanese
default font may be set.  Paragraph-level style is re-extracted and
re-applied unchanged, so the paragraph's own attributes are kept. -/
def substitute_paragraph (p : Paragraph) (new_text : String) : Paragraph :=
  let is_japanese := is_japanese_text new_text
  match p.runs with
  | r0 :: _ =>
      let first_run_style := extract_text_style r0
      let new_run := Run.new new_text
      let new_run := first_run_style.apply_to_run new_run is_japanese
      let new_run :=
        if !truthyNat new_run.font.size && !truthyNat first_run_style.font_size
        then { new_run with font := { new_run.font with size := some 11 } }
        else new_run
      { p with runs := [new_run] }
  | [] =>
      let new_run := Run.new new_text
      let new_run :=
        if is_japanese then
          { new_run with
              font := { new_run.font with name := some (JAPANESE_FONTS.headD "") } }
        else new_run
      { p with runs := [new_run] }

/-- The paragraph loop of `PPTXTranslator.replace_text_in_shape`: the
first paragraph whose trimmed text is a key is substituted and the loop
breaks (`break` at line 384), leaving all later paragraphs untouched. -/
def replace_in_paragraphs (m : List (String × String)) :
    List Paragraph → List Paragraph × Nat
  | [] => ([], 0)
  | p :: rest =>
      match dictFind m (paraText p).strip with
      | some new_text => (substitute_paragraph p new_text :: rest, 1)
      | none =>
          let r := replace_in_paragraphs m rest
          (p :: r.1, r.2)

/-- `PPTXTranslator.replace_text_in_shape`: a no-op returning 0 for any
shape without a text frame (tables, groups). -/
def replace_text_in_shape (m : List (String × String)) : Shape → Shape × Nat
  | Shape.text tf =>
      let r := replace_in_paragraphs m tf.paragraphs
      (Shape.text ⟨r.1⟩, r.2)
  | s => (s, 0)

/-- The matching-cell body of `PPTXTranslator.replace_text_in_table`
(lines 411–449): all paragraphs are cleared, paragraphs beyond the first
are removed, one new run on the first paragraph receives the text, the
first paragraph's first-run style (when present) is reapplied, and an
11-point size is installed when the resulting run has no truthy size. -/
def substitute_cell (cell : TextFrame) (new_text : String) : TextFrame :=
  let is_japanese := is_japanese_text new_text
  match cell.paragraphs with
  | first_para :: _ =>
      let original_style := first_para.runs.head?.map extract_text_style
      let new_run := Run.new new_text
      let new_run :=
        match original_style with
        | some st => st.apply_to_run new_run is_japanese
        | none =>
            if is_japanese then
              { new_run with
                  font := { new_run.font with
                              name := some (JAPANESE_FONTS.headD "") } }
            else new_run
      let new_run :=
        if !truthyNat new_run.font.size then
          { new_run with font := { new_run.font with size := some 11 } }
        else new_run
      ⟨[{ first_para with runs := [new_run] }]⟩
  | [] => ⟨[{ runs := [Run.new new_text] }]⟩

/-- One cell step of `PPTXTranslator.replace_text_in_table`. -/
def replace_cell (m : List (String × String)) (cell : TextFrame) :
    TextFrame × Nat :=
  match dictFind m (frameText cell).strip with
  | some new_text => (substitute_cell cell new_text, 1)
  | none => (cell, 0)

/-- `PPTXTranslator.replace_text_in_table`: every matching cell is
replaced (no early exit), a no-op for non-table shapes. -/
def replace_text_in_table (m : List (String × String)) : Shape → Shape × Nat
  | Shape.table rows =>
      let r :=
        rows.foldr
          (fun row acc =>
            let rr :=
              row.foldr
                (fun cell racc =>
                  let c := replace_cell m cell
                  (c.1 :: racc.1, c.2 + racc.2))
                ([], 0)
            (rr.1 :: acc.1, rr.2 + acc.2))
          ([], 0)
      (Shape.table r.1, r.2)
  | s => (s, 0)

/-- The group branch of `PPTXTranslator.process_slide` (lines 484–489):
each direct child of the group is passed to `replace_text_in_shape`
alone — no recursion into nested groups and no table handling. -/
def replace_children (m : List (String × String)) :
    List Shape → List Shape × Nat
  | [] => ([], 0)
  | c :: cs =>
      let c2 := replace_text_in_shape m c
      let r := replace_children m cs
      (c2.1 :: r.1, c2.2 + r.2)

/-- One shape step of `PPTXTranslator.process_slide` (lines 476–489):
text shapes and tables are handled by the two replace functions, and for
a group shape only its direct children are passed — to
`replace_text_in_shape` alone, so nested groups and tables inside groups
are never substituted. -/
def process_shape_gp (m : List (String × String)) : Shape → Shape × Nat
  | Shape.text tf => replace_text_in_shape m (Shape.text tf)
  | Shape.table rows => replace_text_in_table m (Shape.table rows)
  | Shape.group children =>
      let r := replace_children m children
      (Shape.group r.1, r.2)

/-- `PPTXTranslator.process_slide`: every shape of the slide, counts
summed. -/
def process_slide_gp (m : List (String × String)) (shapes : List Shape) :
    List Shape × Nat :=
  shapes.foldr
    (fun s acc =>
      let s2 := process_shape_gp m s
      (s2.1 :: acc.1, s2.2 + acc.2))
    ([], 0)

/-- `PPTXTranslator.translate`: builds the single document-global map,
processes every slide with it, then replaces whole-notes text that
matches a key.  Returns (success, total replacement count, document). -/
def translate_gp (slides_data : List SlideData) (pres : List Slide) :
    Bool × Nat × List Slide :=
  let m := prepare_text_replacements slides_data
  if m.isEmpty then (true, 0, pres)
  else
    let step1 :=
      pres.foldr
        (fun sl acc =>
          let s2 := process_slide_gp m sl.shapes
          ({ sl with shapes := s2.1 } :: acc.1, s2.2 + acc.2))
        ([], 0)
    let step2 :=
      step1.1.foldr
        (fun sl acc =>
          match sl.notes with
          | some nt =>
              match dictFind m nt.strip with
              | some t => ({ sl with notes := some t } :: acc.1, acc.2 + 1)
              | none => (sl :: acc.1, acc.2)
          | none => (sl :: acc.1, acc.2))
        ([], step1.2)
    (true, step2.2, step2.1)

/-- The I/O outcomes surrounding one conversion run of generate_pptx.py:
whether the source path is a URL, whether it exists on disk, whether
`Presentation(...)` loads, the loaded document, whether
`presentation.save` succeeds, and the saved file's size.  These model the
try/except boundaries of the script. -/
structure Env where
  sourceIsUrl : Bool
  sourceExists : Bool
  loadOk : Bool
  document : List Slide
  saveOk : Bool
  savedSize : Nat
deriving Repr

/-- The result dictionary of `generate_translated_pptx`. -/
structure GenResult where
  success : Bool
  output : Option String
  replacements : Nat
  errors : List String
  fileSize : Option Nat
  warnings : List String
deriving Repr, DecidableEq

/-- `generate_translated_pptx` of generate_pptx.py (lines 570–633): the
result starts as failure with `output = None`; a missing non-URL source
or a load failure returns early with an error message; otherwise the
in-memory replacement count is stored in the result before the save is
attempted; on save failure the save error is reported and `success` and
`output` keep their failure values; only a successful save sets
`success = True` and `output` to the path.  (In the model the translate
step never raises, matching its internal try/except which only converts
exceptions into a logged failure.) -/
def generate_translated_pptx (env : Env) (slides_data : List SlideData)
    (output_path : String) : GenResult :=
  if !env.sourceIsUrl && !env.sourceExists then
    { success := false, output := none, replacements := 0,
      errors := ["Original file not found"], fileSize := none,
      warnings := [] }
  else if !env.loadOk then
    { success := false, output := none, replacements := 0,
      errors := ["Failed to load presentation"], fileSize := none,
      warnings := [] }
  else
    let total := (translate_gp slides_data env.document).2.1
    if env.saveOk then
      { success := true, output := some output_path, replacements := total,
        errors := [], fileSize := some env.savedSize, warnings := [] }
    else
      { success := false, output := none, replacements := total,
        errors := ["Failed to save presentation"], fileSize := none,
        warnings := ["Failed to save presentation"] }

/-- The process exit status chosen by `main`:
`sys.exit(0 if result["success"] else 1)`. -/
def exit_code (r : GenResult) : Nat :=
  if r.success then 0 else 1

/-! ### generate_translated_pptx.py -/

/-- The paragraph replacement of generate_translated_pptx.py's
`replace_text_in_shape` (lines 99–111): the full translated text is
assigned to the first run and every later run's text is set to `""`; the
runs themselves are kept.  With no runs a single new run is added. -/
def gt_substitute_paragraph (p : Paragraph) (translated : String) :
    Paragraph :=
  match p.runs with
  | [] => { p with runs := [Run.new translated] }
  | r0 :: rest =>
      { p with
          runs := { r0 with text := translated } ::
            rest.map (fun r => { r with text := "" }) }

/-- The paragraph loop of generate_translated_pptx.py's
`replace_text_in_shape`: every paragraph with non-empty trimmed joined
run text that is a key of the slide's map is replaced (no break). -/
def gt_replace_in_frame (m : List (String × String)) (tf : TextFrame) :
    TextFrame :=
  ⟨tf.paragraphs.map (fun p =>
    let original := (String.join (p.runs.map (fun r => r.text))).strip
    if original == "" then p
    else
      match dictFind m original with
      | some t => gt_substitute_paragraph p t
      | none => p)⟩

/-! ### apply_translations.py (one slide of apply_translations_to_pptx) -/

/-- One `{original, translated}` record of the per-slide translations
list. -/
structure TransRecord where
  original : String
  translated : String
deriving Repr, DecidableEq

/-- An entry of `shape_text_map`: the shape's index together with the
stale trimmed text captured before any record is applied; a table entry
holds (row, column, stale trimmed cell text) for each non-empty cell. -/
inductive V1Entry where
  | text (idx : Nat) (original_text : String)
  | table (idx : Nat) (cells : List (Nat × Nat × String))
deriving Repr, DecidableEq

/-- The `shape_text_map` construction (lines 42–68): a text-frame shape
with non-empty trimmed text yields a text entry; a table shape yields a
table entry listing its non-empty cells; groups yield nothing. -/
def v1_build_map (shapes : List Shape) : List V1Entry :=
  shapes.enum.filterMap (fun is =>
    match is.2 with
    | Shape.text tf =>
        if (frameText tf).strip != "" then
          some (V1Entry.text is.1 ((frameText tf).strip))
        else none
    | Shape.table rows =>
        some (V1Entry.table is.1
          ((rows.enum.map (fun rr =>
              (rr.2.enum.filterMap (fun cc =>
                if (frameText cc.2).strip != "" then
                  some (rr.1, cc.1, (frameText cc.2).strip)
                else none)))).flatten))
    | Shape.group _ => none)

/-- The matching-text-shape body (lines 84–113): the first paragraph's
first-run font name/size/bold/italic are saved, `shape.text` is assigned
(rebuilding the frame as one default paragraph with one run), and the
saved attributes are written back onto the new run under Python
truthiness / `is not None` checks.  With no paragraphs or no runs the
text is assigned without restoration. -/
def v1_replace_text_shape (tf : TextFrame) (translated : String) :
    TextFrame :=
  match tf.paragraphs with
  | [] => ⟨[{ runs := [Run.new translated] }]⟩
  | fp :: _ =>
      match fp.runs with
      | [] => ⟨[{ runs := [Run.new translated] }]⟩
      | r0 :: _ =>
          let nr := Run.new translated
          let nr := if truthyStr r0.font.name then
              { nr with font := { nr.font with name := r0.font.name } } else nr
          let nr := if truthyNat r0.font.size then
              { nr with font := { nr.font with size := r0.font.size } } else nr
          let nr := if r0.font.bold.isSome then
              { nr with font := { nr.font with bold := r0.font.bold } } else nr
          let nr := if r0.font.italic.isSome then
              { nr with font := { nr.font with italic := r0.font.italic } }
            else nr
          ⟨[{ runs := [nr] }]⟩

/-- The matching-table-cell body (lines 124–171): each paragraph's
first-run attributes are saved, `cell.text` is assigned (one default
paragraph, one run), and the first saved attribute record is restored
onto the new run. -/
def v1_replace_cell (cell : TextFrame) (translated : String) : TextFrame :=
  let props := cell.paragraphs.filterMap (fun para => para.runs.head?.map
    (fun r => (r.font.name, r.font.size, r.font.bold, r.font.italic,
               r.font.colorRgb)))
  let nr := Run.new translated
  match props with
  | [] => ⟨[{ runs := [nr] }]⟩
  | (name, size, b, it, col) :: _ =>
      let nr := if truthyStr name then
          { nr with font := { nr.font with name := name } } else nr
      let nr := if truthyNat size then
          { nr with font := { nr.font with size := size } } else nr
      let nr := if b.isSome then
          { nr with font := { nr.font with bold := b } } else nr
      let nr := if it.isSome then
          { nr with font := { nr.font with italic := it } } else nr
      let nr := if col.isSome then
          { nr with font := { nr.font with colorRgb := col } } else nr
      ⟨[{ runs := [nr] }]⟩

/-- Applying one (non-skipped) record to the entries (lines 78–172): the
first text entry whose stale text equals the record's trimmed original is
replaced and the entry loop breaks; for a table entry the first matching
cell is replaced and the loop continues with the next entry. -/
def v1_apply_to_entries (o t : String) :
    List V1Entry → List Shape → Nat → List Shape × Nat
  | [], shapes, n => (shapes, n)
  | V1Entry.text i stale :: rest, shapes, n =>
      if stale == o then
        (listModify (fun s =>
            match s with
            | Shape.text tf => Shape.text (v1_replace_text_shape tf t)
            | s => s) i shapes,
         n + 1)
      else v1_apply_to_entries o t rest shapes n
  | V1Entry.table i cells :: rest, shapes, n =>
      match cells.find? (fun c => c.2.2 == o) with
      | some c =>
          v1_apply_to_entries o t rest
            (listModify (fun s =>
                match s with
                | Shape.table rows =>
                    Shape.table (listModify (fun row =>
                      listModify (fun cell => v1_replace_cell cell t)
                        c.2.1 row) c.1 rows)
                | s => s) i shapes)
            (n + 1)
      | none => v1_apply_to_entries o t rest shapes n

/-- `apply_translations_to_pptx` restricted to one slide: the
`shape_text_map` is built once from the slide's initial shapes and every
record is applied against it; a record whose trimmed original or trimmed
translated is empty is skipped (lines 71–76) — equality of the two is
NOT checked. -/
def v1_apply_translations_slide (shapes : List Shape)
    (records : List TransRecord) : List Shape × Nat :=
  let entries := v1_build_map shapes
  records.foldl
    (fun st rec =>
      let o := rec.original.strip
      let t := rec.translated.strip
      if o == "" || t == "" then st
      else v1_apply_to_entries o t entries st.1 st.2)
    (shapes, 0)

/-! ### process_pptx.py (PPTXProcessor.extract_text_from_slide) -/

/-- One entry of a slide's extraction payload.  The generated unique id
is an opaque fresh string and plays no role in ordering, so it is
omitted; positions are modelled as rationals. -/
structure TextUnit where
  original : String
  x : ℚ
  y : ℚ
  w : ℚ
  h : ℚ
  kind : String
deriving Repr, DecidableEq

/-- A shape as seen by the extraction walk: geometry (each value `None`
when unset) plus either a cell-text grid or paragraph texts. -/
inductive ExShape where
  | table (left top width height : Option ℚ) (cells : List (List String))
  | textFrame (left top width height : Option ℚ) (paraTexts : List String)
  | plain
deriving Repr, DecidableEq

/-- Python's `round` (banker's rounding, ties to even) on a rational. -/
def pyRound (q : ℚ) : ℤ :=
  let f := ⌊q⌋
  let r := q - (f : ℚ)
  if r < 1 / 2 then f
  else if 1 / 2 < r then f + 1
  else if f % 2 = 0 then f else f + 1

/-- The collection phase of `extract_text_from_slide` (lines 105–176):
tables first contribute each non-empty cell in row-major order with an
approximated cell rectangle, then text-frame shapes contribute each
non-empty paragraph with the shape's rectangle; geometry fallbacks
follow Python truthiness (`if shape.width and len(table.columns) > 0`,
`if shape.left`, ...). -/
def collectUnits (shapes : List ExShape) : List TextUnit :=
  shapes.foldr
    (fun s acc =>
      match s with
      | ExShape.table left top width height cells =>
          let ncols := (cells.headD []).length
          let nrows := cells.length
          let cw := if truthyRat width && decide (0 < ncols) then
              width.getD 0 / ncols else 100
          let ch := if truthyRat height && decide (0 < nrows) then
              height.getD 0 / nrows else 30
          ((cells.enum.map (fun rr =>
              rr.2.enum.filterMap (fun cc =>
                let cell_text := cc.2.strip
                if cell_text == "" then none
                else
                  some { original := cell_text
                         x := if truthyRat left then
                             left.getD 0 + cc.1 * cw else cc.1 * cw
                         y := if truthyRat top then
                             top.getD 0 + rr.1 * ch else rr.1 * ch
                         w := cw, h := ch, kind := "table_cell" }))).flatten)
            ++ acc
      | ExShape.textFrame left top width height paraTexts =>
          (paraTexts.filterMap (fun t =>
            let text_content := t.strip
            if text_content == "" then none
            else
              some { original := text_content
                     x := if truthyRat left then left.getD 0 else 0
                     y := if truthyRat top then top.getD 0 else 0
                     w := if truthyRat width then width.getD 0 else 0
                     h := if truthyRat height then height.getD 0 else 0
                     kind := "text" })) ++ acc
      | ExShape.plain => acc)
    []

/-- The sort key of line 188: `(round(y / 20) * 20, x)` with the
20-point row tolerance. -/
def rowKey (t : TextUnit) : ℤ := pyRound (t.y / 20) * 20

/-- The (total, transitive) comparison realised by Python's stable sort
on the key `(round(y / 20) * 20, x)`: earlier row bin first, then
ascending horizontal position inside a bin. -/
def unitLE (a b : TextUnit) : Prop :=
  rowKey a < rowKey b ∨ (rowKey a = rowKey b ∧ a.x ≤ b.x)

instance : DecidableRel unitLE := fun a b => by
  unfold unitLE; exact inferInstance

instance : IsTotal TextUnit unitLE where
  total a b := by
    unfold unitLE
    rcases lt_trichotomy (rowKey a) (rowKey b) with h | h | h
    · exact Or.inl (Or.inl h)
    · rcases le_total a.x b.x with hx | hx
      · exact Or.inl (Or.inr ⟨h, hx⟩)
      · exact Or.inr (Or.inr ⟨h.symm, hx⟩)
    · exact Or.inr (Or.inl h)

instance : IsTrans TextUnit unitLE where
  trans a b c hab hbc := by
    unfold unitLE at *
    rcases hab with h1 | ⟨h1, hx1⟩
    · rcases hbc with h2 | ⟨h2, _⟩
      · exact Or.inl (h1.trans h2)
      · exact Or.inl (h2 ▸ h1)
    · rcases hbc with h2 | ⟨h2, hx2⟩
      · exact Or.inl (h1 ▸ h2)
      · exact Or.inr ⟨h1.trans h2, hx1.trans hx2⟩

/-- `extract_text_from_slide`: the collected units sorted by
`texts.sort(key=lambda t: (round(y / 20) * 20, x))` — modelled by the
stable insertion sort on `unitLE`. -/
def extract_text_from_slide (shapes : List ExShape) : List TextUnit :=
  List.insertionSort unitLE (collectUnits shapes)

/-! ### Concrete instances used by individual claims -/

/-- The exclusion property of §4.3 on one replacement pair. -/
def exclOK (p : String × String) : Prop :=
  p.1 ≠ "" ∧ p.2 ≠ "" ∧ p.1 ≠ p.2

/-- The text of the first paragraph of the first shape of the first
slide (used to observe a document after a run). -/
def docFirstParaText (doc : List Slide) : String :=
  match doc with
  | sl :: _ =>
      match sl.shapes with
      | Shape.text ⟨p :: _⟩ :: _ => paraText p
      | _ => ""
  | [] => ""

/-- C1: a two-slide presentation whose first slide holds the text
unit "X"; the second slide is empty. -/
def c1_pres : List Slide :=
  [{ shapes := [Shape.text ⟨[{ runs := [Run.new "X"] }]⟩] },
   { shapes := [] }]

/-- C1: the pair ("X", "Y") is supplied for page 2 only; page 1's entry
carries no pairs. -/
def c1_data : List SlideData :=
  [⟨[]⟩, ⟨[⟨"X", "Y"⟩]⟩]

/-- C2: one slide holding a text shape that reads "A". -/
def c2_shapes : List Shape :=
  [Shape.text ⟨[{ runs := [Run.new "A"] }]⟩]

/-- C2: a single no-op record — trimmed original equals trimmed
translated, both non-empty. -/
def c2_records : List TransRecord := [⟨"A", "A"⟩]

/-- C3: the replacement map `{"Hello": "X"}`. -/
def c3_m : List (String × String) := [("Hello", "X")]

/-- C3: a paragraph whose text is split over two runs "Hel" and "lo". -/
def c3_tf : TextFrame := ⟨[{ runs := [Run.new "Hel", Run.new "lo"] }]⟩

/-- C4: a one-slide presentation holding the text unit "a". -/
def c4_pres : List Slide :=
  [{ shapes := [Shape.text ⟨[{ runs := [Run.new "a"] }]⟩] }]

/-- C4: two chained pairs ("a", "b") and ("b", "c"); each passes the
§4.3 exclusion rule (non-empty, original ≠ translated). -/
def c4_data : List SlideData := [⟨[⟨"a", "b"⟩, ⟨"b", "c"⟩]⟩]

/-- C7: the replacement map `{"X": "Y"}`. -/
def c7_m : List (String × String) := [("X", "Y")]

/-- C7: a text frame whose single paragraph reads "X". -/
def c7_tf : TextFrame := ⟨[{ runs := [Run.new "X"] }]⟩

/-- C9: an environment whose source loads fine but whose save fails; the
document holds the text unit "Hello". -/
def c9_env : Env :=
  { sourceIsUrl := false, sourceExists := true, loadOk := true,
    document := [{ shapes := [Shape.text ⟨[{ runs := [Run.new "Hello"] }]⟩] }],
    saveOk := false, savedSize := 0 }

/-- C9: one supplied pair ("Hello", "World") for the single slide. -/
def c9_data : List SlideData := [⟨[⟨"Hello", "World"⟩]⟩]

/-! ### Helper lemmas -/

/-- Style application never changes a run's text. -/
theorem apply_to_run_text (s : TextStyle) (r : Run) (ja : Bool) :
    (s.apply_to_run r ja).text = r.text := rfl

/-- The font size produced by style application: the template size when
it is truthy, the run's prior size otherwise. -/
theorem apply_to_run_font_size (s : TextStyle) (r : Run) (ja : Bool) :
    (s.apply_to_run r ja).font.size =
      (if truthyNat s.font_size then s.font_size else r.font.size) := by
  cases hsz : truthyNat s.font_size <;>
  cases ja <;>
  cases hany : JAPANESE_FONTS.any
      (fun jp => strContainsSub (s.font_name.getD "") jp) <;>
  cases hfn : truthyStr s.font_name <;>
  cases hb : s.bold.isSome <;>
  cases hi : s.italic.isSome <;>
  cases hu : s.underline.isSome <;>
  cases hc : s.color_rgb.isSome <;>
  simp [TextStyle.apply_to_run, hsz, hany, hfn, hb, hi, hu, hc]

/-- The font name produced by style application, in all cases. -/
theorem apply_to_run_font_name (s : TextStyle) (r : Run) (ja : Bool) :
    (s.apply_to_run r ja).font.name =
      (if ja then
        (if truthyStr s.font_name && JAPANESE_FONTS.any
            (fun jp => strContainsSub (s.font_name.getD "") jp)
         then s.font_name else some (JAPANESE_FONTS.headD ""))
       else if truthyStr s.font_name then s.font_name else r.font.name) := by
  cases hsz : truthyNat s.font_size <;>
  cases ja <;>
  cases hany : JAPANESE_FONTS.any
      (fun jp => strContainsSub (s.font_name.getD "") jp) <;>
  cases hfn : truthyStr s.font_name <;>
  cases hb : s.bold.isSome <;>
  cases hi : s.italic.isSome <;>
  cases hu : s.underline.isSome <;>
  cases hc : s.color_rgb.isSome <;>
  simp [TextStyle.apply_to_run, hsz, hany, hfn, hb, hi, hu, hc]

/-- A substituted paragraph's runs carry exactly the translated text. -/
theorem substitute_paragraph_texts (p : Paragraph) (nt : String) :
    (substitute_paragraph p nt).runs.map Run.text = [nt] := by
  unfold substitute_paragraph
  cases p.runs with
  | nil => dsimp only; split <;> simp [Run.new]
  | cons r0 rs =>
      dsimp only
      split <;> simp [apply_to_run_text, Run.new]

/-- A substituted paragraph's plain text is the translated text. -/
theorem paraText_substitute (p : Paragraph) (nt : String) :
    paraText (substitute_paragraph p nt) = nt := by
  have h := substitute_paragraph_texts p nt
  unfold paraText
  rw [h]
  simp [String.join]

/-- A value returned by `dictFind` is the second component of a stored
pair. -/
theorem dictFind_mem {m : List (String × String)} {k v : String}
    (h : dictFind m k = some v) : ∃ p ∈ m, p.2 = v := by
  unfold dictFind at h
  cases hf : m.find? (fun p => p.1 == k) with
  | none => rw [hf] at h; cases h
  | some q =>
      rw [hf] at h
      cases h
      exact ⟨q, List.mem_of_find?_eq_some hf, rfl⟩

/-- When no paragraph matches, the paragraph loop is the identity and
counts zero. -/
theorem replace_in_paragraphs_nomatch (m : List (String × String))
    (l : List Paragraph)
    (h : ∀ q ∈ l, dictFind m (paraText q).strip = none) :
    replace_in_paragraphs m l = (l, 0) := by
  induction l with
  | nil => rfl
  | cons p rest ih =>
      have hp := h p (List.mem_cons_self p rest)
      have hrest : ∀ q ∈ rest, dictFind m (paraText q).strip = none :=
        fun q hq => h q (List.mem_cons_of_mem p hq)
      simp [replace_in_paragraphs, hp, ih hrest]

/-- The paragraph loop performs at most one replacement (the break). -/
theorem replace_in_paragraphs_count_le_one (m : List (String × String))
    (l : List Paragraph) : (replace_in_paragraphs m l).2 ≤ 1 := by
  induction l with
  | nil => simp [replace_in_paragraphs]
  | cons p rest ih =>
      cases h : dictFind m (paraText p).strip <;>
        simp [replace_in_paragraphs, h, ih]

/-- `dictInsert` preserves any property held by the stored pairs and the
inserted pair. -/
theorem dictInsert_forall {P : String × String → Prop}
    {m : List (String × String)} {k v : String}
    (hm : ∀ p ∈ m, P p) (hkv : P (k, v)) :
    ∀ p ∈ dictInsert m k v, P p := by
  intro p hp
  unfold dictInsert at hp
  by_cases hk : m.any (fun q => q.1 == k)
  · rw [if_pos hk] at hp
    obtain ⟨q, hq, hq2⟩ := List.mem_map.mp hp
    by_cases hqk : (q.1 == k) = true
    · rw [if_pos hqk] at hq2
      rw [← hq2]; exact hkv
    · rw [if_neg hqk] at hq2
      rw [← hq2]; exact hm q hq
  · rw [if_neg hk] at hp
    rcases List.mem_append.mp hp with h | h
    · exact hm p h
    · simp only [List.mem_singleton] at h
      rw [h]; exact hkv

/-- One step of the map builder preserves the §4.3 exclusion property. -/
theorem add_replacement_excl {m : List (String × String)} {td : TextData}
    (hm : ∀ p ∈ m, exclOK p) : ∀ p ∈ add_replacement m td, exclOK p := by
  unfold add_replacement
  by_cases hg : (td.original.strip != "" && td.translated.strip != "" &&
      td.original.strip != td.translated.strip) = true
  · rw [if_pos hg]
    have hgp : td.original.strip ≠ "" ∧ td.translated.strip ≠ "" ∧
        td.original.strip ≠ td.translated.strip := by
      simp only [Bool.and_eq_true, bne_iff_ne] at hg
      exact ⟨hg.1.1, hg.1.2, hg.2⟩
    exact dictInsert_forall hm ⟨hgp.1, hgp.2.1, hgp.2.2⟩
  · rw [if_neg hg]
    exact hm

/-- The inner fold of the map builder preserves the exclusion
property. -/
theorem texts_foldl_excl (ts : List TextData) :
    ∀ m, (∀ p ∈ m, exclOK p) →
      ∀ p ∈ ts.foldl add_replacement m, exclOK p := by
  induction ts with
  | nil => intro m hm; simpa using hm
  | cons t ts ih =>
      intro m hm
      simp only [List.foldl_cons]
      exact ih _ (add_replacement_excl hm)

/-- Every pair of the built replacement map satisfies the §4.3
exclusion: non-empty key, non-empty value, key ≠ value. -/
theorem prepare_text_replacements_excl (sds : List SlideData) :
    ∀ p ∈ prepare_text_replacements sds, exclOK p := by
  unfold prepare_text_replacements
  suffices h : ∀ (l : List SlideData) (m : List (String × String)),
      (∀ p ∈ m, exclOK p) →
      ∀ p ∈ l.foldl (fun m sd => sd.texts.foldl add_replacement m) m,
        exclOK p by
    exact h sds [] (by intro p hp; cases hp)
  intro l
  induction l with
  | nil => intro m hm; simpa using hm
  | cons sd l ih =>
      intro m hm
      simp only [List.foldl_cons]
      exact ih _ (texts_foldl_excl sd.texts m hm)

/-- When every direct child of a group is left unchanged by
`replace_text_in_shape`, the whole group is left unchanged. -/
theorem replace_children_untouched (m : List (String × String))
    (cs : List Shape)
    (h : ∀ c ∈ cs, replace_text_in_shape m c = (c, 0)) :
    replace_children m cs = (cs, 0) := by
  induction cs with
  | nil => rfl
  | cons c cs ih =>
      have hc := h c (List.mem_cons_self c cs)
      have hcs := ih (fun x hx => h x (List.mem_cons_of_mem c hx))
      simp [replace_children, hc, hcs]

/-! ### Claims -/

/-- C1: the spec requires the map used while substituting a slide's text
units to contain only that slide's pairs.  `generate_pptx.py` instead
builds one document-global map: here the pair ("X", "Y"), supplied only
for page 2, is applied to the text unit "X" on slide 1, which ends up
reading "Y" with one replacement counted. -/
theorem C1_cross_slide_leak :
    prepare_text_replacements c1_data = [("X", "Y")] ∧
    translate_gp c1_data c1_pres =
      (true, 1,
        [{ shapes := [Shape.text ⟨[{ runs :=
            [{ text := "Y", font := { size := some 11 } }] }]⟩] },
         { shapes := [] }]) :=
  ⟨by rfl, by rfl⟩

/-- C5 counterexample: the template font family "Yu Gothic UI" is not
one of the known CJK-capable families, the translated text "こんにちは"
is Japanese, yet the code keeps "Yu Gothic UI" instead of overriding it
with the first preference entry "游ゴシック" — because the keep-check is
a substring test ("Yu Gothic" occurs inside "Yu Gothic UI"). -/
theorem C5_substring_keep_counterexample :
    is_japanese_text "こんにちは" = true ∧
    JAPANESE_FONTS.all (fun f => f != "Yu Gothic UI") = true ∧
    (TextStyle.apply_to_run { font_name := some "Yu Gothic UI" }
        (Run.new "こんにちは") (is_japanese_text "こんにちは")).font.name =
      some "Yu Gothic UI" ∧
    some "Yu Gothic UI" ≠ some (JAPANESE_FONTS.headD "") := by
  refine ⟨by rfl, by rfl, by rfl, by decide⟩

/-- C5 amended: for a CJK translated text the template font family is
kept exactly when it is truthy and contains one of the known CJK-capable
family names as a substring (list membership is the special case);
otherwise the first preference entry is installed; for a non-CJK
translated text the template family is applied when truthy and the run's
prior family is kept when not. -/
theorem C5_cjk_font_amended (s : TextStyle) (r : Run) (t : String) :
    (s.apply_to_run r (is_japanese_text t)).font.name =
      (if is_japanese_text t then
        (if truthyStr s.font_name && JAPANESE_FONTS.any
            (fun jp => strContainsSub (s.font_name.getD "") jp)
         then s.font_name else some (JAPANESE_FONTS.headD ""))
       else if truthyStr s.font_name then s.font_name
       else r.font.name) :=
  apply_to_run_font_name s r (is_japanese_text t)

/-- C6: when the template (first-run) style carries no truthy font size,
the single run produced by paragraph substitution, and the single run
produced by table-cell substitution, end up with a size of exactly 11
points. -/
theorem C6_default_size :
    (∀ (p : Paragraph) (r0 : Run) (rs : List Run) (nt : String),
        p.runs = r0 :: rs → truthyNat r0.font.size = false →
        (substitute_paragraph p nt).runs.map (fun r => r.font.size) =
          [some 11]) ∧
    (∀ (cell : TextFrame) (fp : Paragraph) (ps : List Paragraph)
        (nt : String),
        cell.paragraphs = fp :: ps →
        (∀ r0 ∈ fp.runs.head?, truthyNat r0.font.size = false) →
        ((substitute_cell cell nt).paragraphs.map
          (fun q => q.runs.map (fun r => r.font.size))) = [[some 11]]) := by
  constructor
  · intro p r0 rs nt hruns hsz
    have happ : ((extract_text_style r0).apply_to_run (Run.new nt)
        (is_japanese_text nt)).font.size = none := by
      rw [apply_to_run_font_size]
      simp [extract_text_style, hsz, Run.new]
    simp [substitute_paragraph, hruns, happ, hsz,
      show (extract_text_style r0).font_size = r0.font.size from rfl,
      show truthyNat none = false from rfl]
  · intro cell fp ps nt hps hsz
    cases hr : fp.runs with
    | nil =>
        simp [substitute_cell, hps, hr,
          apply_ite (fun r : Run => r.font.size), Run.new, truthyNat,
          ite_self]
    | cons r0 rsc =>
        have hsz0 : truthyNat r0.font.size = false := by
          apply hsz; simp [hr]
        have happ : ((extract_text_style r0).apply_to_run (Run.new nt)
            (is_japanese_text nt)).font.size = none := by
          rw [apply_to_run_font_size]
          simp [extract_text_style, hsz0, Run.new]
        simp [substitute_cell, hps, hr, happ, hsz0,
          show (extract_text_style r0).font_size = r0.font.size from rfl,
          show truthyNat none = false from rfl]

/-- C6 witness: a one-run paragraph and a one-cell frame with no
explicit size anywhere end up at exactly 11 points. -/
theorem C6_default_size_witness :
    ((substitute_paragraph { runs := [Run.new "old"] } "new").runs.map
        (fun r => r.font.size) = [some 11]) ∧
    (((substitute_cell ⟨[{ runs := [Run.new "old"] }]⟩ "new").paragraphs.map
        (fun q => q.runs.map (fun r => r.font.size))) = [[some 11]]) :=
  ⟨C6_default_size.1 { runs := [Run.new "old"] } (Run.new "old") [] "new"
      rfl rfl,
   C6_default_size.2 ⟨[{ runs := [Run.new "old"] }]⟩
      { runs := [Run.new "old"] } [] "new" rfl
      (by intro r0 hr0; cases hr0; rfl)⟩

/-- C7 counterexample: with the map `{"X": "Y"}`, a text unit "X" nested
inside two group levels is left unchanged and uncounted, and a table
inside a group is also left unchanged — while the same unit one group
level deep, or a table placed directly on the slide, is substituted.
The claim's "at every nesting depth" fails. -/
theorem C7_depth_counterexample :
    process_slide_gp c7_m [Shape.group [Shape.group [Shape.text c7_tf]]] =
      ([Shape.group [Shape.group [Shape.text c7_tf]]], 0) ∧
    (process_slide_gp c7_m [Shape.group [Shape.text c7_tf]]).2 = 1 ∧
    process_slide_gp c7_m [Shape.group [Shape.table [[c7_tf]]]] =
      ([Shape.group [Shape.table [[c7_tf]]]], 0) ∧
    (process_slide_gp c7_m [Shape.table [[c7_tf]]]).2 = 1 :=
  ⟨by rfl, by rfl, by rfl, by rfl⟩

/-- C7 amended: group handling is exactly one level deep and covers text
shapes only — a text frame that is a direct child of a top-level group
is substituted exactly as the paragraph loop substitutes a direct text
shape, while a group child that is itself a group, and a table child,
are returned unchanged with zero replacements. -/
theorem C7_one_level_amended :
    (∀ (m : List (String × String)) (tf : TextFrame),
        process_shape_gp m (Shape.group [Shape.text tf]) =
          (Shape.group
            [Shape.text ⟨(replace_in_paragraphs m tf.paragraphs).1⟩],
           (replace_in_paragraphs m tf.paragraphs).2)) ∧
    (∀ (m : List (String × String)) (cs : List (List Shape)),
        process_shape_gp m (Shape.group (cs.map Shape.group)) =
          (Shape.group (cs.map Shape.group), 0)) ∧
    (∀ (m : List (String × String)) (rows : List (List TextFrame)),
        process_shape_gp m (Shape.group [Shape.table rows]) =
          (Shape.group [Shape.table rows], 0)) := by
  refine ⟨?_, ?_, ?_⟩
  · intro m tf
    simp [process_shape_gp, replace_children, replace_text_in_shape]
  · intro m cs
    have h := replace_children_untouched m (cs.map Shape.group) ?_
    · simp [process_shape_gp, h]
    · intro c hc
      obtain ⟨g, _, rfl⟩ := List.mem_map.mp hc
      rfl
  · intro m rows
    simp [process_shape_gp, replace_children, replace_text_in_shape]

/-- C8: the extraction payload of a slide is a permutation of the
collected text units, sorted into reading order — ascending row bin
(vertical position rounded to the 20-point row tolerance) first, then
ascending horizontal position within a row bin. -/
theorem C8_reading_order (shapes : List ExShape) :
    List.Perm (extract_text_from_slide shapes) (collectUnits shapes) ∧
    List.Sorted unitLE (extract_text_from_slide shapes) :=
  ⟨List.perm_insertionSort unitLE (collectUnits shapes),
   List.sorted_insertionSort unitLE (collectUnits shapes)⟩

/-- C10: one call of `replace_text_in_shape` counts at most one
replacement, and once a first matching paragraph is found it is
substituted and every later paragraph — matching or not — is returned
unchanged with nothing further counted. -/
theorem C10_single_break :
    (∀ (m : List (String × String)) (s : Shape),
        (replace_text_in_shape m s).2 ≤ 1) ∧
    (∀ (m : List (String × String)) (l₁ : List Paragraph) (p : Paragraph)
        (l₂ : List Paragraph) (nt : String),
        (∀ q ∈ l₁, dictFind m (paraText q).strip = none) →
        dictFind m (paraText p).strip = some nt →
        replace_in_paragraphs m (l₁ ++ p :: l₂) =
          (l₁ ++ substitute_paragraph p nt :: l₂, 1)) := by
  constructor
  · intro m s
    cases s with
    | text tf =>
        simpa [replace_text_in_shape] using
          replace_in_paragraphs_count_le_one m tf.paragraphs
    | table rows => simp [replace_text_in_shape]
    | group cs => simp [replace_text_in_shape]
  · intro m l₁
    induction l₁ with
    | nil =>
        intro p l₂ nt _ hp
        simp [replace_in_paragraphs, hp]
    | cons q l₁ ih =>
        intro p l₂ nt hnone hp
        have hq := hnone q (List.mem_cons_self q l₁)
        have hrest := fun x hx => hnone x (List.mem_cons_of_mem q hx)
        simp [replace_in_paragraphs, hq, ih p l₂ nt hrest hp]

/-- C10 witness: with map `{"p": "q"}` and two matching paragraphs, only
the first is rewritten, the second is untouched, and the count is 1. -/
theorem C10_single_break_witness :
    (replace_text_in_shape [("p", "q")]
        (Shape.text ⟨[{ runs := [Run.new "p"] },
                      { runs := [Run.new "p"] }]⟩)).2 ≤ 1 ∧
    replace_in_paragraphs [("p", "q")]
        ([] ++ { runs := [Run.new "p"] } ::
          [({ runs := [Run.new "p"] } : Paragraph)]) =
      ([] ++ substitute_paragraph { runs := [Run.new "p"] } "q" ::
        [({ runs := [Run.new "p"] } : Paragraph)], 1) :=
  ⟨C10_single_break.1 [("p", "q")]
      (Shape.text ⟨[{ runs := [Run.new "p"] },
                    { runs := [Run.new "p"] }]⟩),
   C10_single_break.2 [("p", "q")] [] { runs := [Run.new "p"] }
      [({ runs := [Run.new "p"] } : Paragraph)] "q"
      (by intro q hq; cases hq) (by rfl)⟩

/-- C2 counterexample: in `apply_translations_to_pptx` a record whose
non-empty original equals its translated ("A" → "A") is not excluded:
applied against a slide holding the text "A" it matches and increments
the reported replacement count to 1 — the claim says the count is never
incremented by such a record. -/
theorem C2_noop_counted_counterexample :
    c2_records.all
      (fun r => r.original == r.translated && r.original != "") = true ∧
    (v1_apply_translations_slide c2_shapes c2_records).2 = 1 :=
  ⟨by rfl, by rfl⟩

/-- C2 amended: the full exclusion holds for the map builder of
generate_pptx.py — every stored pair has a non-empty key, a non-empty
value, and key ≠ value — while `apply_translations_to_pptx` skips only
records with an empty trimmed original or translated; a record with
equal non-empty fields is still applied and counted. -/
theorem C2_exclusion_amended :
    (∀ (sds : List SlideData) (p : String × String),
        p ∈ prepare_text_replacements sds →
        p.1 ≠ "" ∧ p.2 ≠ "" ∧ p.1 ≠ p.2) ∧
    (∀ (shapes : List Shape) (records : List TransRecord)
        (rec : TransRecord),
        rec.original.strip = "" ∨ rec.translated.strip = "" →
        v1_apply_translations_slide shapes (records ++ [rec]) =
          v1_apply_translations_slide shapes records) := by
  constructor
  · intro sds p hp
    exact prepare_text_replacements_excl sds p hp
  · intro shapes records rec h
    unfold v1_apply_translations_slide
    rw [List.foldl_append]
    rcases h with h | h <;> simp [h]

/-- C2 witness: the pair ("A", "B") survives the builder with the
exclusion intact, and a record with an empty original is a no-op. -/
theorem C2_exclusion_amended_witness :
    (("A", "B").1 ≠ "" ∧ ("A", "B").2 ≠ "" ∧
      ("A", "B").1 ≠ ("A", "B").2) ∧
    v1_apply_translations_slide c2_shapes ([] ++ [⟨"", "Z"⟩]) =
      v1_apply_translations_slide c2_shapes [] :=
  ⟨C2_exclusion_amended.1 [⟨[⟨"A", "B"⟩]⟩] ("A", "B") (by decide),
   C2_exclusion_amended.2 c2_shapes [] ⟨"", "Z"⟩ (Or.inl (by rfl))⟩

/-- C3 counterexample: in generate_translated_pptx.py a matched
paragraph with the two runs "Hel"/"lo" ends the substitution with TWO
runs — the translation "X" in the first and a stray empty run — not the
single run the claim requires. -/
theorem C3_stray_runs_counterexample :
    gt_replace_in_frame c3_m c3_tf =
      ⟨[{ runs := [Run.new "X", Run.new ""] }]⟩ ∧
    ((gt_replace_in_frame c3_m c3_tf).paragraphs.map
      (fun p => p.runs.length)) = [2] :=
  ⟨by rfl, by rfl⟩

/-- C3 amended: the generate_pptx.py engine does collapse a matched
paragraph to exactly one run holding the full translated text; the
generate_translated_pptx.py variant keeps the run count unchanged,
putting the full translated text in the first run and emptying — not
removing — every later run. -/
theorem C3_single_run_amended :
    (∀ (p : Paragraph) (nt : String), p.runs ≠ [] →
        (substitute_paragraph p nt).runs.map Run.text = [nt]) ∧
    (∀ (p : Paragraph) (nt : String), p.runs ≠ [] →
        (gt_substitute_paragraph p nt).runs.length = p.runs.length ∧
        (gt_substitute_paragraph p nt).runs.map Run.text =
          nt :: List.replicate (p.runs.length - 1) "") := by
  constructor
  · intro p nt _
    exact substitute_paragraph_texts p nt
  · intro p nt hne
    cases hr : p.runs with
    | nil => exact absurd hr hne
    | cons r0 rest =>
        have hmap : ∀ l : List Run,
            (l.map (fun r => { r with text := "" })).map Run.text =
              List.replicate l.length "" := by
          intro l
          induction l with
          | nil => rfl
          | cons a l ih => simp [ih, List.replicate_succ]
        constructor
        · simp [gt_substitute_paragraph, hr]
        · simp [gt_substitute_paragraph, hr, hmap]

/-- C3 witness: a one-run paragraph collapses to the translation; a
two-run paragraph in the other variant keeps two runs, the second
empty. -/
theorem C3_single_run_witness :
    (substitute_paragraph { runs := [Run.new "ab"] } "cd").runs.map
        Run.text = ["cd"] ∧
    ((gt_substitute_paragraph { runs := [Run.new "He", Run.new "y"] }
        "zz").runs.length = 2 ∧
      (gt_substitute_paragraph { runs := [Run.new "He", Run.new "y"] }
        "zz").runs.map Run.text = "zz" :: List.replicate 1 "") :=
  ⟨C3_single_run_amended.1 { runs := [Run.new "ab"] } "cd" (by decide),
   C3_single_run_amended.2 { runs := [Run.new "He", Run.new "y"] } "zz"
     (by decide)⟩

/-- C4 counterexample: with the chained pairs ("a", "b") and ("b", "c")
— both admitted by the §4.3 exclusion rule — a document reading "a"
becomes "b" after one application and "c" after a second application,
which also reports one further replacement instead of zero. -/
theorem C4_not_idempotent_counterexample :
    prepare_text_replacements c4_data = [("a", "b"), ("b", "c")] ∧
    (translate_gp c4_data c4_pres).2.1 = 1 ∧
    docFirstParaText (translate_gp c4_data c4_pres).2.2 = "b" ∧
    (translate_gp c4_data (translate_gp c4_data c4_pres).2.2).2.1 = 1 ∧
    docFirstParaText
      (translate_gp c4_data (translate_gp c4_data c4_pres).2.2).2.2 =
      "c" ∧
    ("c" : String) ≠ "b" :=
  ⟨by rfl, by rfl, by rfl, by rfl, by rfl, by decide⟩

/-- C4 amended: the paragraph substitution pass is idempotent — the
second application changes nothing and performs zero replacements —
under two extra assumptions the counterexamples force: no stored
translated value may strip to a key of the map (ruling out chained
pairs), and at most one paragraph of the frame may match a key (ruling
out matches the first pass's break skipped). -/
theorem C4_idempotent_amended (m : List (String × String))
    (l : List Paragraph)
    (hval : ∀ pr ∈ m, dictFind m pr.2.strip = none)
    (hone : l.countP
        (fun p => (dictFind m (paraText p).strip).isSome) ≤ 1) :
    replace_in_paragraphs m (replace_in_paragraphs m l).1 =
      ((replace_in_paragraphs m l).1, 0) := by
  induction l with
  | nil => rfl
  | cons p rest ih =>
      cases h : dictFind m (paraText p).strip with
      | some nt =>
          have hcnt : rest.countP
              (fun q => (dictFind m (paraText q).strip).isSome) = 0 := by
            have h1 : rest.countP
                (fun q => (dictFind m (paraText q).strip).isSome) + 1 ≤
                  1 := by
              simpa [List.countP_cons, h] using hone
            omega
          have hnone : ∀ q ∈ rest,
              dictFind m (paraText q).strip = none := by
            intro q hq
            have h2 := List.countP_eq_zero.mp hcnt q hq
            cases hd : dictFind m (paraText q).strip with
            | none => rfl
            | some v => rw [hd] at h2; simp at h2
          have hsub : dictFind m
              (paraText (substitute_paragraph p nt)).strip = none := by
            rw [paraText_substitute]
            obtain ⟨pr, hpr, hpr2⟩ := dictFind_mem h
            have h3 := hval pr hpr
            rw [hpr2] at h3
            exact h3
          simp only [replace_in_paragraphs, h]
          exact replace_in_paragraphs_nomatch m _ (by
            intro q hq
            rcases List.mem_cons.mp hq with rfl | hq2
            · exact hsub
            · exact hnone q hq2)
      | none =>
          have hone2 : rest.countP
              (fun q => (dictFind m (paraText q).strip).isSome) ≤ 1 := by
            simpa [List.countP_cons, h] using hone
          simp only [replace_in_paragraphs, h]
          rw [ih hone2]

/-- C4 witness: the single pair ("a", "b") on a one-paragraph document
satisfies both assumptions, and a second application is a no-op. -/
theorem C4_idempotent_amended_witness :
    replace_in_paragraphs [("a", "b")]
        (replace_in_paragraphs [("a", "b")]
          [{ runs := [Run.new "a"] }]).1 =
      ((replace_in_paragraphs [("a", "b")]
          [{ runs := [Run.new "a"] }]).1, 0) :=
  C4_idempotent_amended [("a", "b")] [{ runs := [Run.new "a"] }]
    (by decide) (by decide)

/-- C9: when the source is readable and loads but the save fails, the
result has success = false, a null output, a non-empty error list, and
still carries the in-memory replacement count, and the process exit
status is non-zero; and in every run the output path is present exactly
when success is true. -/
theorem C9_save_failure_result :
    (∀ (env : Env) (sd : List SlideData) (out : String),
        (env.sourceIsUrl || env.sourceExists) = true →
        env.loadOk = true → env.saveOk = false →
        (generate_translated_pptx env sd out).success = false ∧
        (generate_translated_pptx env sd out).output = none ∧
        (generate_translated_pptx env sd out).errors ≠ [] ∧
        (generate_translated_pptx env sd out).replacements =
          (translate_gp sd env.document).2.1 ∧
        exit_code (generate_translated_pptx env sd out) ≠ 0) ∧
    (∀ (env : Env) (sd : List SlideData) (out : String),
        (generate_translated_pptx env sd out).output.isSome =
          (generate_translated_pptx env sd out).success) := by
  constructor
  · intro env sd out hsrc hload hsave
    have h1 : (!env.sourceIsUrl && !env.sourceExists) = false := by
      cases hu : env.sourceIsUrl <;> cases he : env.sourceExists <;>
        simp_all
    unfold generate_translated_pptx exit_code
    simp [h1, hload, hsave]
  · intro env sd out
    unfold generate_translated_pptx
    cases h1 : (!env.sourceIsUrl && !env.sourceExists) <;>
      cases h2 : env.loadOk <;> cases h3 : env.saveOk <;>
        simp [h1, h2, h3]

/-- C9 witness: a concrete failing-save run over a one-slide document
reports success = false, no output, an error, the computed count (= 1),
and exit status 1. -/
theorem C9_save_failure_witness :
    (generate_translated_pptx c9_env c9_data "/out.pptx").success =
      false ∧
    (generate_translated_pptx c9_env c9_data "/out.pptx").output =
      none ∧
    (generate_translated_pptx c9_env c9_data "/out.pptx").errors ≠ [] ∧
    (generate_translated_pptx c9_env c9_data "/out.pptx").replacements =
      (translate_gp c9_data c9_env.document).2.1 ∧
    exit_code (generate_translated_pptx c9_env c9_data "/out.pptx") ≠
      0 :=
  C9_save_failure_result.1 c9_env c9_data "/out.pptx" (by rfl) (by rfl)
    (by rfl)

end Pptx
